import Mathlib

/-!
# Verification of the AutoCut core engine against its specification

This file gives a shallow embedding of the core data model and algorithms of
the AutoCut video silence-removal tool (`app/core/models.py`,
`app/analysis/silence_detector.py`, `app/export/edl.py`, `app/export/fcpxml.py`,
`app/ui/main_window.py`) and proves or refutes the specified properties.

Modelling conventions:
* Python `float` seconds and dBFS values are modelled as `ℚ` (every Python
  float is a rational number; the properties verified here are exact
  algebraic facts about the code's arithmetic and control flow).
* Python `int` is `ℤ`; Python `//` and `%` are `Int.fdiv` / `Int.fmod`
  (floor semantics), `int(x)` truncation is `Int.tdiv`.
* Python's stable `sorted(key=...)` is `List.insertionSort` with the
  corresponding `≤` relation (a stable sort).
* Code that raises an exception is modelled with `Option` / `Except`
  (in particular `np.percentile` on an empty array raises `IndexError`).
* The per-frame RMS→dBFS computation (`SilenceDetector._compute_frame_db`,
  which uses `sqrt`/`log10`) is abstracted by an arbitrary frame-energy
  function `dbFrame : List ℚ → ℚ`; every theorem quantifies over it, so the
  results hold whatever values the real computation produces.
-/

attribute [local semireducible] Rat.sub Rat.add Rat.mul Rat.inv

namespace AutoCut

/-! ## Data model (`app/core/models.py`) -/

/-- `CutType` enum from `models.py`. -/
inductive CutType where
  | SILENCE
  | BREATH
  | KEEP
  | MANUAL
deriving DecidableEq, Repr

/-- The JSON string value of a `CutType` (`CutType.value` in Python). -/
def CutType.value : CutType → String
  | .SILENCE => "silence"
  | .BREATH => "breath"
  | .KEEP => "keep"
  | .MANUAL => "manual"

/-- Reconstructing a `CutType` from its string value (`CutType(s)` in Python;
raises `ValueError` on an unknown string, modelled by `none`). -/
def cutTypeOfValue : String → Option CutType
  | "silence" => some .SILENCE
  | "breath" => some .BREATH
  | "keep" => some .KEEP
  | "manual" => some .MANUAL
  | _ => none

/-- `MediaInfo` dataclass (the fields used by the verified components).
`file_path` is kept as a string; `duration` is in seconds. -/
structure MediaInfo where
  file_path : String
  duration : ℚ
  fps : ℚ
  width : ℤ := 0
  height : ℤ := 0
  sample_rate : ℤ := 48000
  channels : ℤ := 2
deriving DecidableEq, Repr

/-- `Cut` dataclass.  The Python field `end` is called `stop` here
(`end` is a Lean keyword). -/
structure Cut where
  id : String := ""
  start : ℚ := 0
  stop : ℚ := 0
  cut_type : CutType := .SILENCE
  enabled : Bool := true
  label : String := ""
  source_avg_db : ℚ := -60
  source_peak_db : ℚ := -60
deriving DecidableEq, Repr

/-- `Cut.duration` property. -/
def Cut.duration (c : Cut) : ℚ := c.stop - c.start

/-- `Cut.is_removable` property: enabled and of type SILENCE or BREATH. -/
def Cut.is_removable (c : Cut) : Bool :=
  c.enabled && (c.cut_type = CutType.SILENCE || c.cut_type = CutType.BREATH)

/-- `AudioSegment` dataclass (detector-internal).  The Python field `end`
is called `stop` here. -/
structure AudioSegment where
  start : ℚ
  stop : ℚ
  avg_db : ℚ
  peak_db : ℚ
  is_silence : Bool
deriving DecidableEq, Repr

/-- `AudioSegment.merge_with`: union of spans, mean of averages, max of peaks. -/
def AudioSegment.merge_with (a b : AudioSegment) : AudioSegment :=
  { start := min a.start b.start
    stop := max a.stop b.stop
    avg_db := (a.avg_db + b.avg_db) / 2
    peak_db := max a.peak_db b.peak_db
    is_silence := a.is_silence && b.is_silence }

/-- `AnalysisConfig` dataclass with the default field values of
`app/core/models.py` (lines 228-255). -/
structure AnalysisConfig where
  silence_threshold_db : ℚ := -35
  hysteresis_db : ℚ := 3
  silence_min_duration_ms : ℤ := 250
  merge_gap_ms : ℤ := 120
  keep_short_pauses_ms : ℤ := 0
  pre_pad_ms : ℤ := 80
  post_pad_ms : ℤ := 120
  frame_ms : ℤ := 10
  breath_detection : Bool := false
  breath_threshold_db : ℚ := -45
  breath_min_duration_ms : ℤ := 100
  breath_max_duration_ms : ℤ := 400
  use_vad : Bool := false
  vad_aggressiveness : ℤ := 2
deriving DecidableEq, Repr

/-- `TranscriptWord` dataclass.  The Python field `end` is called `stop`. -/
structure TranscriptWord where
  text : String
  start : ℚ
  stop : ℚ
  confidence : ℚ
deriving DecidableEq, Repr

/-- `TranscriptSegment` dataclass.  The Python field `end` is called `stop`. -/
structure TranscriptSegment where
  id : String := ""
  text : String := ""
  start : ℚ := 0
  stop : ℚ := 0
  language : String := "en"
  words : List TranscriptWord := []
deriving DecidableEq, Repr

/-- `Project` dataclass (the fields that `save`/`load` and the timeline
algebra touch). -/
structure Project where
  id : String := ""
  name : String := "Untitled Project"
  created_at : String := ""
  modified_at : String := ""
  media_info : Option MediaInfo := none
  config : AnalysisConfig := {}
  cuts : List Cut := []
  transcript_segments : List TranscriptSegment := []
  transcript_language : String := "auto"
  transcript_model : String := "faster-whisper-medium"
  waveform_cache_path : Option String := none
deriving DecidableEq, Repr

/-! ## EDL timecode conversion (`app/export/edl.py`) -/

/-- Python `abs()` on a rational, written without Mathlib's lattice `abs`
so that concrete instances reduce in the kernel. -/
def pyAbs (q : ℚ) : ℚ := if q < 0 then -q else q

/-- Python `"{:02d}".format(n)`: zero-pad to width 2. -/
def pad2 (n : ℤ) : String :=
  let s := toString n
  if s.length < 2 then "0" ++ s else s

/-- Python `round()`: round half to even. -/
def pyRound (q : ℚ) : ℤ :=
  let f := Rat.floor q
  let r := q - f
  if r < 1/2 then f
  else if 1/2 < r then f + 1
  else if f % 2 = 0 then f else f + 1

/-- `frames_to_timecode` from `edl.py` lines 29-59.  Python `//` and `%`
are floor division / floor modulus (`Int.fdiv` / `Int.fmod`). -/
def frames_to_timecode (frames : ℤ) (fps : ℚ) (drop_frame : Bool) : String :=
  let adjusted : ℤ :=
    if drop_frame ∧ pyAbs (fps - 2997/100) < 1/10 then
      let d := Int.fdiv frames 17982
      let m := Int.fmod frames 17982
      frames + 18 * d + 2 * Int.fdiv (m - 2) 1798
    else frames
  let fps_int : ℤ := pyRound fps
  let total_seconds := Int.fdiv adjusted fps_int
  let remaining_frames := Int.fmod adjusted fps_int
  let hours := Int.fdiv total_seconds 3600
  let minutes := Int.fdiv (Int.fmod total_seconds 3600) 60
  let seconds := Int.fmod total_seconds 60
  let sep := if drop_frame then ";" else ":"
  pad2 hours ++ ":" ++ pad2 minutes ++ ":" ++ pad2 seconds ++ sep ++ pad2 remaining_frames

/-! ## Theorems for claims C5 and C7 -/

/-- C5: the drop-frame converter is claimed to return `00:00:00;00` at frame 0
and `00:10:00;00` at frame 17982 for fps 29.97.  The code does not: Python's
floor division makes `(m - 2) // 1798` equal `-1` when `m < 2`, so the
adjusted frame count is negative at frame 0 (yielding the timecode
`-1:59:59;28`) and two frames short at frame 17982 (yielding `00:09:59;28`).
This theorem evaluates the code at both failing inputs. -/
theorem frames_to_timecode_drop_frame_bug :
    frames_to_timecode 0 (2997/100) true = "-1:59:59;28" ∧
    frames_to_timecode 17982 (2997/100) true = "00:09:59;28" ∧
    frames_to_timecode 0 (2997/100) true ≠ "00:00:00;00" ∧
    frames_to_timecode 17982 (2997/100) true ≠ "00:10:00;00" := by
  refine ⟨?_, ?_, ?_, ?_⟩ <;> decide

/-- C7: the claimed defaults (threshold -30, hysteresis 3, min duration 500,
merge gap 300, keep-short 150, pre-pad 100, post-pad 150) match the repo's
own test `test_models.py::test_default_config`, but a default-constructed
`AnalysisConfig` in `models.py` actually has threshold -35, min duration 250,
merge gap 120, keep-short 0, pre-pad 80, post-pad 120 (only the hysteresis
matches).  This theorem evaluates the defaults. -/
theorem analysis_config_defaults_bug :
    ({} : AnalysisConfig).silence_threshold_db = -35 ∧
    ({} : AnalysisConfig).hysteresis_db = 3 ∧
    ({} : AnalysisConfig).silence_min_duration_ms = 250 ∧
    ({} : AnalysisConfig).merge_gap_ms = 120 ∧
    ({} : AnalysisConfig).keep_short_pauses_ms = 0 ∧
    ({} : AnalysisConfig).pre_pad_ms = 80 ∧
    ({} : AnalysisConfig).post_pad_ms = 120 ∧
    ¬(({} : AnalysisConfig).silence_threshold_db = -30 ∧
      ({} : AnalysisConfig).silence_min_duration_ms = 500 ∧
      ({} : AnalysisConfig).merge_gap_ms = 300 ∧
      ({} : AnalysisConfig).keep_short_pauses_ms = 150 ∧
      ({} : AnalysisConfig).pre_pad_ms = 100 ∧
      ({} : AnalysisConfig).post_pad_ms = 150) := by
  refine ⟨?_, ?_, ?_, ?_, ?_, ?_, ?_, ?_⟩ <;> decide

/-! ## Timeline algebra (`models.py` lines 291-333, `main_window.py` 1697-1712) -/

/-- The by-`start` comparison used by Python `sorted(..., key=lambda x: x.start)`. -/
def cutLE (a b : Cut) : Prop := a.start ≤ b.start

instance : DecidableRel cutLE := fun a b => inferInstanceAs (Decidable (a.start ≤ b.start))

instance : IsTotal Cut cutLE := ⟨fun a b => le_total a.start b.start⟩

instance : IsTrans Cut cutLE := ⟨fun _ _ _ h h2 => le_trans h h2⟩

/-- Python's stable `sorted(cuts, key=lambda x: x.start)`. -/
def sortByStart (cuts : List Cut) : List Cut := List.insertionSort cutLE cuts

/-- The cursor sweep shared verbatim by `Project.get_keep_segments`
(`models.py` 310-322) and `MainWindow._render_video_without_silences`
(`main_window.py` 1699-1712): emit the gap before each cut whenever
`cut.start > cursor`, advance `cursor = max(cursor, cut.end)`, and finally
emit `(cursor, duration)` if `cursor < duration`. -/
def keepSweep (duration : ℚ) : ℚ → List Cut → List (ℚ × ℚ)
  | cursor, [] => if cursor < duration then [(cursor, duration)] else []
  | cursor, c :: rest =>
      (if cursor < c.start then [(cursor, c.start)] else []) ++
        keepSweep duration (max cursor c.stop) rest

/-- `Project.get_keep_segments` (`models.py` 291-323): no media ⇒ `[]`;
no enabled removable cut ⇒ `[(0, duration)]`; otherwise the sweep over the
cuts sorted by start. -/
def Project.get_keep_segments (p : Project) : List (ℚ × ℚ) :=
  match p.media_info with
  | none => []
  | some mi =>
      match sortByStart (p.cuts.filter Cut.is_removable) with
      | [] => [(0, mi.duration)]
      | c :: rest => keepSweep mi.duration 0 (c :: rest)

/-- `Project.get_total_cut_duration` (`models.py` 325-327). -/
def Project.get_total_cut_duration (p : Project) : ℚ :=
  ((p.cuts.filter Cut.is_removable).map Cut.duration).sum

/-- `Project.get_final_duration` (`models.py` 329-333). -/
def Project.get_final_duration (p : Project) : ℚ :=
  match p.media_info with
  | none => 0
  | some mi => mi.duration - p.get_total_cut_duration

/-- The keep-segment sweep exactly as the spec words it (§4.2), written
independently of `Project.get_keep_segments` for the refinement comparison
in C3: for each cut, if `cut.start > cursor` emit `(cursor, cut.start)`,
then `cursor = max(cursor, cut.end)`; after the loop, if
`cursor < duration` emit `(cursor, duration)`. -/
def specSweep (duration : ℚ) : ℚ → List Cut → List (ℚ × ℚ)
  | cursor, [] => if cursor < duration then [(cursor, duration)] else []
  | cursor, c :: rest =>
      if cursor < c.start then
        (cursor, c.start) :: specSweep duration (max cursor c.stop) rest
      else specSweep duration (max cursor c.stop) rest

/-- The spec's keep-segment derivation: sort the enabled removable cuts by
start and run the sweep from cursor 0. -/
def keepSegmentsSpec (duration : ℚ) (cuts : List Cut) : List (ℚ × ℚ) :=
  specSweep duration 0 (sortByStart (cuts.filter Cut.is_removable))

/-- The keep-segment list computed by the render path
(`MainWindow._render_video_without_silences`, `main_window.py` 1697-1712):
the same sweep, but over all *enabled* cuts regardless of type. -/
def renderKeepSegments (duration : ℚ) (cuts : List Cut) : List (ℚ × ℚ) :=
  keepSweep duration 0 (sortByStart (cuts.filter Cut.enabled))

/-- Total length of a list of `(start, end)` segments. -/
def segLengthSum (segs : List (ℚ × ℚ)) : ℚ := (segs.map (fun s => s.2 - s.1)).sum

lemma keepSweep_eq_specSweep (duration : ℚ) :
    ∀ (cuts : List Cut) (cursor : ℚ),
      keepSweep duration cursor cuts = specSweep duration cursor cuts
  | [], _ => rfl
  | c :: rest, cursor => by
      simp only [keepSweep, specSweep, keepSweep_eq_specSweep duration rest]
      split <;> simp

lemma keepSweep_sum (duration : ℚ) (cuts : List Cut) :
    ∀ (cursor : ℚ), cursor ≤ duration →
      (∀ c ∈ cuts, cursor ≤ c.start) →
      (∀ c ∈ cuts, c.start ≤ c.stop ∧ c.stop ≤ duration) →
      List.Pairwise (fun a b => a.stop ≤ b.start) cuts →
      segLengthSum (keepSweep duration cursor cuts) + (cuts.map Cut.duration).sum
        = duration - cursor := by
  induction cuts with
  | nil =>
      intro cursor hcd _ _ _
      simp only [keepSweep, segLengthSum]
      split
      · simp
      · have h : cursor = duration := le_antisymm hcd (not_lt.1 (by assumption))
        simp [h]
  | cons c rest ih =>
      intro cursor hcd hcs hgood hpw
      have hc1 : cursor ≤ c.start := hcs c (List.mem_cons_self c rest)
      obtain ⟨hse, hsd⟩ := hgood c (List.mem_cons_self c rest)
      have hpw1 := List.pairwise_cons.1 hpw
      have hmax : max cursor c.stop = c.stop := max_eq_right (hc1.trans hse)
      have hrec := ih c.stop hsd (fun x hx => hpw1.1 x hx)
        (fun x hx => hgood x (List.mem_cons_of_mem c hx)) hpw1.2
      simp only [segLengthSum] at hrec ⊢
      simp only [keepSweep, hmax, List.map_append, List.sum_append,
        List.map_cons, List.sum_cons, Cut.duration]
      rcases lt_or_eq_of_le hc1 with h | h
      · rw [if_pos h]
        simp only [List.map_cons, List.map_nil, List.sum_cons, List.sum_nil]
        linarith
      · rw [if_neg (by rw [h]; exact lt_irrefl _)]
        simp only [List.map_nil, List.sum_nil]
        linarith

/-! ## Theorems for claims C3, C4, C10 -/

/-- C3: for every project with media of positive duration, `get_keep_segments`
equals the spec's sweep (sort enabled removable cuts by start; cursor sweep;
tail segment), and in particular with no enabled removable cut the result is
the single segment `(0, duration)`.  (The spec's `InvalidMedia` contract
excludes zero/negative durations, so `0 < duration` is part of the claim's
domain; at `duration = 0` the code's early return `[(0, 0)]` would differ
from the sweep's `[]`.) -/
theorem get_keep_segments_eq_spec_sweep (p : Project) (mi : MediaInfo)
    (hmi : p.media_info = some mi) (hD : 0 < mi.duration) :
    p.get_keep_segments = keepSegmentsSpec mi.duration p.cuts ∧
      (p.cuts.filter Cut.is_removable = [] →
        p.get_keep_segments = [(0, mi.duration)]) := by
  constructor
  · simp only [Project.get_keep_segments, hmi, keepSegmentsSpec]
    cases h : sortByStart (p.cuts.filter Cut.is_removable) with
    | nil => simp [specSweep, hD]
    | cons c rest => exact keepSweep_eq_specSweep mi.duration (c :: rest) 0
  · intro hfil
    simp [Project.get_keep_segments, hmi, hfil, sortByStart, List.insertionSort]

/-- Witness for C3 at a concrete project: 60 s media with one enabled
silence cut [10, 20) and one disabled cut. -/
theorem get_keep_segments_eq_spec_sweep_witness :
    (Project.get_keep_segments
        { media_info := some { file_path := "v.mp4", duration := 60, fps := 30 },
          cuts := [{ id := "a", start := 10, stop := 20 },
                   { id := "b", start := 30, stop := 40, enabled := false }] }
      = keepSegmentsSpec 60
          [{ id := "a", start := 10, stop := 20 },
           { id := "b", start := 30, stop := 40, enabled := false }]) ∧
      ([{ id := "a", start := 10, stop := 20 },
        { id := "b", start := 30, stop := 40, enabled := false }].filter Cut.is_removable = [] →
        Project.get_keep_segments
          { media_info := some { file_path := "v.mp4", duration := 60, fps := 30 },
            cuts := [{ id := "a", start := 10, stop := 20 },
                     { id := "b", start := 30, stop := 40, enabled := false }] }
          = [(0, 60)]) :=
  get_keep_segments_eq_spec_sweep
    { media_info := some { file_path := "v.mp4", duration := 60, fps := 30 },
      cuts := [{ id := "a", start := 10, stop := 20 },
               { id := "b", start := 30, stop := 40, enabled := false }] }
    { file_path := "v.mp4", duration := 60, fps := 30 } rfl (by norm_num)

/-- C4 counterexample: the claim asserts the sum identity "for any set of
cuts (including overlapping ones)".  With two identical overlapping enabled
SILENCE cuts [0,5) on a 10 s timeline, Σ keep-segment lengths is 5 and
`get_total_cut_duration` is 10, so the sum is 15, not the duration 10. -/
theorem keep_plus_cut_duration_counterexample :
    (segLengthSum (Project.get_keep_segments
        { media_info := some { file_path := "a.mp4", duration := 10, fps := 30 },
          cuts := [{ id := "a", start := 0, stop := 5 },
                   { id := "b", start := 0, stop := 5 }] })
      + Project.get_total_cut_duration
          { media_info := some { file_path := "a.mp4", duration := 10, fps := 30 },
            cuts := [{ id := "a", start := 0, stop := 5 },
                     { id := "b", start := 0, stop := 5 }] } = 15) ∧
    ((15 : ℚ) ≠ 10) := by
  constructor
  · decide
  · norm_num

/-- C4 (amended): for a project whose enabled removable cuts are pairwise
non-overlapping, non-degenerate and contained in `[0, duration]`, the total
length of `get_keep_segments` plus `get_total_cut_duration` equals the media
duration. -/
theorem keep_plus_cut_duration_eq_duration (p : Project) (mi : MediaInfo)
    (hmi : p.media_info = some mi)
    (hgood : ∀ c ∈ p.cuts.filter Cut.is_removable,
        0 ≤ c.start ∧ c.start < c.stop ∧ c.stop ≤ mi.duration)
    (hdisj : List.Pairwise (fun a b => a.stop ≤ b.start ∨ b.stop ≤ a.start)
        (p.cuts.filter Cut.is_removable)) :
    segLengthSum p.get_keep_segments + p.get_total_cut_duration = mi.duration := by
  have hperm : List.Perm (sortByStart (p.cuts.filter Cut.is_removable))
      (p.cuts.filter Cut.is_removable) := List.perm_insertionSort cutLE _
  have hsum_d : ((sortByStart (p.cuts.filter Cut.is_removable)).map Cut.duration).sum
      = ((p.cuts.filter Cut.is_removable).map Cut.duration).sum :=
    (hperm.map Cut.duration).sum_eq
  have hmem : ∀ c ∈ sortByStart (p.cuts.filter Cut.is_removable),
      0 ≤ c.start ∧ c.start < c.stop ∧ c.stop ≤ mi.duration :=
    fun c hc => hgood c (hperm.mem_iff.1 hc)
  have hdisj2 : List.Pairwise (fun a b => a.stop ≤ b.start ∨ b.stop ≤ a.start)
      (sortByStart (p.cuts.filter Cut.is_removable)) :=
    (hperm.pairwise_iff (fun h => h.symm)).2 hdisj
  have hsort : List.Pairwise cutLE (sortByStart (p.cuts.filter Cut.is_removable)) :=
    List.sorted_insertionSort cutLE _
  have hchain : List.Pairwise (fun a b => a.stop ≤ b.start)
      (sortByStart (p.cuts.filter Cut.is_removable)) := by
    refine (hsort.and hdisj2).imp_of_mem ?_
    intro a b ha hb hab
    obtain ⟨hle, hd⟩ := hab
    rcases hd with h | h
    · exact h
    · obtain ⟨_, hab1, _⟩ := hmem a ha
      obtain ⟨_, hbb1, _⟩ := hmem b hb
      exact absurd (lt_of_lt_of_le hbb1 (h.trans hle)) (lt_irrefl _)
  simp only [Project.get_keep_segments, hmi, Project.get_total_cut_duration]
  cases h : sortByStart (p.cuts.filter Cut.is_removable) with
  | nil =>
      have hl : p.cuts.filter Cut.is_removable = [] := (h ▸ hperm).nil_eq.symm
      simp [segLengthSum, hl]
  | cons c rest =>
      rw [h] at hmem hchain hsum_d
      have h0D : (0 : ℚ) ≤ mi.duration := by
        obtain ⟨h1, h2, h3⟩ := hmem c (List.mem_cons_self c rest)
        linarith
      have := keepSweep_sum mi.duration (c :: rest) 0 h0D
        (fun x hx => (hmem x hx).1)
        (fun x hx => ⟨le_of_lt (hmem x hx).2.1, (hmem x hx).2.2⟩) hchain
      rw [← hsum_d]
      linarith

/-- Witness for C4 at a concrete project: 60 s media, disjoint enabled
silence cuts [10,20) and [40,50), keep length 40 + cut length 20 = 60. -/
theorem keep_plus_cut_duration_eq_duration_witness :
    segLengthSum (Project.get_keep_segments
        { media_info := some { file_path := "w.mp4", duration := 60, fps := 30 },
          cuts := [{ id := "a", start := 10, stop := 20 },
                   { id := "b", start := 40, stop := 50 }] })
      + Project.get_total_cut_duration
          { media_info := some { file_path := "w.mp4", duration := 60, fps := 30 },
            cuts := [{ id := "a", start := 10, stop := 20 },
                     { id := "b", start := 40, stop := 50 }] } = 60 :=
  keep_plus_cut_duration_eq_duration _ _ rfl (by decide) (by decide)

/-- C10 counterexample to "the two derivations are equal exactly when every
enabled cut has type SILENCE or BREATH": with a single enabled degenerate
KEEP cut [0,0) on a 10 s timeline, the render path and `get_keep_segments`
both yield `[(0, 10)]` even though an enabled cut of type KEEP is present,
so the "exactly when" equivalence fails. -/
theorem render_vs_keep_counterexample :
    (renderKeepSegments 10
        [{ id := "k", start := 0, stop := 0, cut_type := CutType.KEEP }]
      = Project.get_keep_segments
          { media_info := some { file_path := "d.mp4", duration := 10, fps := 30 },
            cuts := [{ id := "k", start := 0, stop := 0, cut_type := CutType.KEEP }] }) ∧
    ¬(∀ c ∈ [{ id := "k", start := 0, stop := 0, cut_type := CutType.KEEP : Cut }],
        c.enabled = true → (c.cut_type = CutType.SILENCE ∨ c.cut_type = CutType.BREATH)) := by
  constructor
  · decide
  · decide

/-- C10 (amended): if every enabled cut has type SILENCE or BREATH, the
render path's segment list equals `get_keep_segments` (for positive
duration); and there is a project with an enabled MANUAL cut on which the
two derivations differ. -/
theorem render_vs_keep_amended :
    (∀ (p : Project) (mi : MediaInfo), p.media_info = some mi → 0 < mi.duration →
      (∀ c ∈ p.cuts, c.enabled = true →
        (c.cut_type = CutType.SILENCE ∨ c.cut_type = CutType.BREATH)) →
      renderKeepSegments mi.duration p.cuts = p.get_keep_segments) ∧
    renderKeepSegments 10 [{ id := "m", start := 2, stop := 4, cut_type := CutType.MANUAL }]
      ≠ Project.get_keep_segments
          { media_info := some { file_path := "e.mp4", duration := 10, fps := 30 },
            cuts := [{ id := "m", start := 2, stop := 4, cut_type := CutType.MANUAL }] } := by
  constructor
  · intro p mi hmi hD hall
    have hfe : p.cuts.filter Cut.enabled = p.cuts.filter Cut.is_removable := by
      apply List.filter_congr
      intro c hc
      cases henb : c.enabled with
      | false => simp [Cut.is_removable, henb]
      | true =>
          rcases hall c hc henb with h | h <;> simp [Cut.is_removable, henb, h]
    simp only [renderKeepSegments, Project.get_keep_segments, hmi, hfe]
    cases h : sortByStart (p.cuts.filter Cut.is_removable) with
    | nil => simp [keepSweep, hD]
    | cons c rest => rfl
  · decide

/-- Witness for the universally quantified half of the amended C10. -/
theorem render_vs_keep_amended_witness :
    renderKeepSegments 60 [{ id := "s", start := 10, stop := 20 }]
      = Project.get_keep_segments
          { media_info := some { file_path := "f.mp4", duration := 60, fps := 30 },
            cuts := [{ id := "s", start := 10, stop := 20 }] } :=
  render_vs_keep_amended.1
    { media_info := some { file_path := "f.mp4", duration := 60, fps := 30 },
      cuts := [{ id := "s", start := 10, stop := 20 }] }
    { file_path := "f.mp4", duration := 60, fps := 30 } rfl (by norm_num) (by decide)

/-! ## Silence detector (`app/analysis/silence_detector.py`) -/

/-- `np.percentile(xs, q)` with the default linear interpolation:
sort ascending, take position `q/100 · (n-1)`, and interpolate between the
two neighbouring entries.  Only meaningful for non-empty `xs` (numpy raises
on an empty array; callers guard with `Option`). -/
def percentileLinear (xs : List ℚ) (q : ℚ) : ℚ :=
  let sorted := xs.insertionSort (· ≤ ·)
  let pos : ℚ := q / 100 * ((xs.length : ℚ) - 1)
  let i : ℕ := (Rat.floor pos).toNat
  let lo := sorted.getD i 0
  let hi := sorted.getD (i + 1) lo
  lo + (pos - (i : ℚ)) * (hi - lo)

/-- `SilenceDetector._calculate_adaptive_threshold` (lines 46-78):
20th/80th percentiles of the frame dBFS array; if the dynamic range is
below 10 dB fall back to the user threshold, otherwise
`max(noise_floor + 0.25·range, silence_threshold_db)`.  `none` models the
`IndexError` that `np.percentile` raises on an empty array. -/
def calculateAdaptiveThreshold (cfg : AnalysisConfig) (db_values : List ℚ) : Option ℚ :=
  match db_values with
  | [] => none
  | _ :: _ =>
      let noise_floor := percentileLinear db_values 20
      let signal_level := percentileLinear db_values 80
      let dynamic_range := signal_level - noise_floor
      if dynamic_range < 10 then some cfg.silence_threshold_db
      else some (max (noise_floor + dynamic_range * (1/4)) cfg.silence_threshold_db)

/-- The Schmitt-trigger walk of `SilenceDetector._apply_hysteresis`
(lines 198-235): in silence, leave when `db > off`; otherwise enter when
`db < on`; the emitted bit is the post-transition state. -/
def hystLoop (onT offT : ℚ) : Bool → List ℚ → List Bool
  | _, [] => []
  | true, d :: rest =>
      if offT < d then false :: hystLoop onT offT false rest
      else true :: hystLoop onT offT true rest
  | false, d :: rest =>
      if d < onT then true :: hystLoop onT offT true rest
      else false :: hystLoop onT offT false rest

/-- `SilenceDetector._apply_hysteresis` with the adaptive threshold
override: on-threshold `t - hysteresis_db`, off-threshold `t + hysteresis_db`. -/
def applyHysteresis (cfg : AnalysisConfig) (threshold : ℚ) (db_values : List ℚ) : List Bool :=
  hystLoop (threshold - cfg.hysteresis_db) (threshold + cfg.hysteresis_db) false db_values

/-- Frame index to seconds: `frame * frame_samples / sample_rate`. -/
def frameTime (fs sr : ℕ) (n : ℕ) : ℚ := ((n * fs : ℕ) : ℚ) / (sr : ℚ)

/-- `SilenceDetector._create_segment` (lines 271-294). -/
def createSegment (db_values : List ℚ) (fs sr : ℕ) (start_frame end_frame : ℕ) :
    AudioSegment :=
  let seg_db := (db_values.drop start_frame).take (end_frame - start_frame)
  { start := frameTime fs sr start_frame
    stop := frameTime fs sr end_frame
    avg_db := if seg_db.length = 0 then -96 else seg_db.sum / (seg_db.length : ℚ)
    peak_db := match seg_db with
      | [] => -96
      | d :: rest => rest.foldl max d
    is_silence := true }

/-- The run-extraction loop of `SilenceDetector._mask_to_segments`
(lines 237-269): `i` is the current frame index, the `Option ℕ` state is
the start frame of the open silent run, if any. -/
def maskSegLoop (db : List ℚ) (fs sr : ℕ) : List Bool → ℕ → Option ℕ → List AudioSegment
  | [], _, none => []
  | [], i, some s => [createSegment db fs sr s i]
  | b :: rest, i, none =>
      if b then maskSegLoop db fs sr rest (i + 1) (some i)
      else maskSegLoop db fs sr rest (i + 1) none
  | b :: rest, i, some s =>
      if b then maskSegLoop db fs sr rest (i + 1) (some s)
      else createSegment db fs sr s i :: maskSegLoop db fs sr rest (i + 1) none

/-- `SilenceDetector._mask_to_segments`. -/
def maskToSegments (mask : List Bool) (db : List ℚ) (fs sr : ℕ) : List AudioSegment :=
  maskSegLoop db fs sr mask 0 none

/-- `SilenceDetector._filter_by_duration` (lines 296-316): drop segments
shorter than `silence_min_duration_ms`, and, when `keep_short_pauses_ms > 0`,
also those shorter than it. -/
def filterByDuration (cfg : AnalysisConfig) (segs : List AudioSegment) : List AudioSegment :=
  let min_d : ℚ := (cfg.silence_min_duration_ms : ℚ) / 1000
  let keep_t : ℚ := (cfg.keep_short_pauses_ms : ℚ) / 1000
  segs.filter fun s =>
    !decide (s.stop - s.start < min_d) &&
      !(decide (0 < keep_t) && decide (s.stop - s.start < keep_t))

/-- The fusion loop of `SilenceDetector._merge_close_segments`
(lines 318-340): fuse the next segment into the accumulated last one when
its start is within `merge_gap` of the last one's end. -/
def mergeLoop (gap : ℚ) : AudioSegment → List AudioSegment → List AudioSegment
  | last, [] => [last]
  | last, s :: rest =>
      if s.start - last.stop ≤ gap then mergeLoop gap (last.merge_with s) rest
      else last :: mergeLoop gap s rest

/-- `SilenceDetector._merge_close_segments`. -/
def mergeCloseSegments (cfg : AnalysisConfig) : List AudioSegment → List AudioSegment
  | [] => []
  | s :: rest => mergeLoop ((cfg.merge_gap_ms : ℚ) / 1000) s rest

/-- The per-segment body of `SilenceDetector._apply_padding` (lines 352-365):
shrink the silent segment by the pads, keep it only if at least 10 ms
remains, and clamp to `[0, total_duration]`. -/
def padSegment (pre post total_duration : ℚ) (seg : AudioSegment) : Option AudioSegment :=
  let new_start := seg.start + pre
  let new_stop := seg.stop - post
  if new_start < new_stop ∧ (1/100 : ℚ) ≤ new_stop - new_start then
    some { start := max 0 new_start, stop := min total_duration new_stop,
           avg_db := seg.avg_db, peak_db := seg.peak_db, is_silence := true }
  else none

/-- `SilenceDetector._apply_padding` (lines 342-367). -/
def applyPadding (cfg : AnalysisConfig) (total_duration : ℚ)
    (segs : List AudioSegment) : List AudioSegment :=
  segs.filterMap
    (padSegment ((cfg.pre_pad_ms : ℚ) / 1000) ((cfg.post_pad_ms : ℚ) / 1000) total_duration)

/-- `SilenceDetector._segments_to_cuts` (lines 369-382).  The Python `Cut`
id is a fresh random uuid token; it is modelled as `""`. -/
def segmentsToCuts (segs : List AudioSegment) : List Cut :=
  segs.map fun s =>
    { id := "", start := s.start, stop := s.stop, cut_type := CutType.SILENCE,
      enabled := true, label := "", source_avg_db := s.avg_db,
      source_peak_db := s.peak_db }

/-- The framing part of `SilenceDetector._compute_frame_db` (lines 173-196):
split into `len(audio) // frame_samples` whole frames, dropping the partial
tail, and apply the per-frame dBFS computation `dbFrame` (which abstracts
`20·log10(max(rms, 1e-10))`). -/
def computeFrameDb (dbFrame : List ℚ → ℚ) (audio : List ℚ) (frame_samples : ℕ) : List ℚ :=
  let num_frames := audio.length / frame_samples
  (List.range num_frames).map fun i =>
    dbFrame ((audio.drop (i * frame_samples)).take frame_samples)

/-- Failure modes of `SilenceDetector.detect`, each modelling a Python
exception: a non-positive frame size crashes the framing
(`ZeroDivisionError` / reshape error), and `np.percentile` raises
`IndexError` on the empty dBFS array produced by an empty PCM stream. -/
inductive DetectError where
  | frameSizeNonpositive
  | percentileOnEmpty
deriving DecidableEq, Repr

instance {e a : Type} [DecidableEq e] [DecidableEq a] : DecidableEq (Except e a) := fun x y =>
  match x, y with
  | .ok u, .ok v =>
      if h : u = v then isTrue (by rw [h]) else isFalse (fun hh => by cases hh; exact h rfl)
  | .error u, .error v =>
      if h : u = v then isTrue (by rw [h]) else isFalse (fun hh => by cases hh; exact h rfl)
  | .ok _, .error _ => isFalse (fun hh => by cases hh)
  | .error _, .ok _ => isFalse (fun hh => by cases hh)

/-- `SilenceDetector.detect` (lines 80-171), for mono float PCM `audio` at
`sample_rate` Hz, with the per-frame dBFS computation abstracted as
`dbFrame`.  `frame_samples = int(sample_rate * frame_ms / 1000)` uses
Python `int()` truncation (`Int.tdiv`). -/
def detect (dbFrame : List ℚ → ℚ) (cfg : AnalysisConfig) (audio : List ℚ)
    (sample_rate : ℕ) : Except DetectError (List Cut) :=
  let duration : ℚ := (audio.length : ℚ) / (sample_rate : ℚ)
  let fsI : ℤ := Int.tdiv ((sample_rate : ℤ) * cfg.frame_ms) 1000
  if fsI ≤ 0 then .error .frameSizeNonpositive
  else
    let fs := fsI.toNat
    let db_values := computeFrameDb dbFrame audio fs
    match calculateAdaptiveThreshold cfg db_values with
    | none => .error .percentileOnEmpty
    | some threshold =>
        let mask := applyHysteresis cfg threshold db_values
        let raw := maskToSegments mask db_values fs sample_rate
        let filtered := filterByDuration cfg raw
        let merged := mergeCloseSegments cfg filtered
        let padded := applyPadding cfg duration merged
        .ok (segmentsToCuts padded)

/-! ## Theorems for claims C2 and C8 -/

/-- C2 (code bug): for a zero-sample PCM stream the spec requires `detect`
to return an empty list and not raise, but the code frames the empty stream
into an empty dBFS array and `np.percentile` then raises `IndexError`
inside `_calculate_adaptive_threshold`.  Evaluated at the failing input
(empty PCM, default config, 48 kHz), for every frame-dB function. -/
theorem detect_empty_input_errors (dbFrame : List ℚ → ℚ) :
    detect dbFrame {} [] 48000 = .error .percentileOnEmpty := rfl

/-- C8: for every non-empty dBFS array the adaptive-threshold stage
succeeds and the working threshold is at least the user's
`silence_threshold_db`; it equals the user threshold when the dynamic range
(80th minus 20th percentile) is under 10 dB, and otherwise equals
`max(noise_floor + 0.25·range, silence_threshold_db)`. -/
theorem adaptive_threshold_at_least_user (cfg : AnalysisConfig) (db_values : List ℚ)
    (h : db_values ≠ []) :
    ∃ t, calculateAdaptiveThreshold cfg db_values = some t ∧
      cfg.silence_threshold_db ≤ t ∧
      (percentileLinear db_values 80 - percentileLinear db_values 20 < 10 →
        t = cfg.silence_threshold_db) ∧
      (¬(percentileLinear db_values 80 - percentileLinear db_values 20 < 10) →
        t = max (percentileLinear db_values 20 +
            (percentileLinear db_values 80 - percentileLinear db_values 20) * (1/4))
          cfg.silence_threshold_db) := by
  cases db_values with
  | nil => exact absurd rfl h
  | cons d rest =>
      simp only [calculateAdaptiveThreshold]
      by_cases hr : percentileLinear (d :: rest) 80 - percentileLinear (d :: rest) 20 < 10
      · rw [if_pos hr]
        exact ⟨_, rfl, le_refl _, fun _ => rfl, fun hc => absurd hr hc⟩
      · rw [if_neg hr]
        exact ⟨_, rfl, le_max_right _ _, fun hc => absurd hc hr, fun _ => rfl⟩

/-- Witness for C8 on a concrete dBFS array with 40 dB of dynamic range. -/
theorem adaptive_threshold_at_least_user_witness :
    ([-50, -50, -10, -10] : List ℚ) ≠ [] ∧
    (∃ t, calculateAdaptiveThreshold {} [-50, -50, -10, -10] = some t ∧
      ({} : AnalysisConfig).silence_threshold_db ≤ t ∧
      (percentileLinear [-50, -50, -10, -10] 80 -
          percentileLinear [-50, -50, -10, -10] 20 < 10 →
        t = ({} : AnalysisConfig).silence_threshold_db) ∧
      (¬(percentileLinear [-50, -50, -10, -10] 80 -
            percentileLinear [-50, -50, -10, -10] 20 < 10) →
        t = max (percentileLinear [-50, -50, -10, -10] 20 +
            (percentileLinear [-50, -50, -10, -10] 80 -
              percentileLinear [-50, -50, -10, -10] 20) * (1/4))
          ({} : AnalysisConfig).silence_threshold_db)) :=
  ⟨by decide, adaptive_threshold_at_least_user {} [-50, -50, -10, -10] (by decide)⟩

/-! ## Sortedness and disjointness of the detector's output (claim C1) -/

lemma natCast_div_mono {m n : ℕ} (sr : ℕ) (h : m ≤ n) : (m : ℚ) / sr ≤ (n : ℚ) / sr := by
  rcases Nat.eq_zero_or_pos sr with h0 | h0
  · simp [h0]
  · have hsr : (0 : ℚ) < sr := by exact_mod_cast h0
    exact (div_le_div_iff_of_pos_right hsr).2 (by exact_mod_cast h)

lemma frameTime_mono (fs sr : ℕ) {m n : ℕ} (h : m ≤ n) :
    frameTime fs sr m ≤ frameTime fs sr n :=
  natCast_div_mono sr (Nat.mul_le_mul_right fs h)

lemma frameTime_nonneg (fs sr n : ℕ) : 0 ≤ frameTime fs sr n := by
  unfold frameTime
  exact div_nonneg (Nat.cast_nonneg _) (Nat.cast_nonneg _)

lemma createSegment_start (db : List ℚ) (fs sr s e : ℕ) :
    (createSegment db fs sr s e).start = frameTime fs sr s := rfl

lemma createSegment_stop (db : List ℚ) (fs sr s e : ℕ) :
    (createSegment db fs sr s e).stop = frameTime fs sr e := rfl

lemma maskSegLoop_spec (db : List ℚ) (fs sr : ℕ) (mask : List Bool) :
    ∀ (i : ℕ) (st : Option ℕ), (∀ s, st = some s → s ≤ i) →
      List.Pairwise (fun a b => a.stop ≤ b.start) (maskSegLoop db fs sr mask i st) ∧
      ∀ a ∈ maskSegLoop db fs sr mask i st,
        a.start ≤ a.stop ∧ 0 ≤ a.start ∧
          a.stop ≤ frameTime fs sr (i + mask.length) ∧
          frameTime fs sr (st.getD i) ≤ a.start := by
  induction mask with
  | nil =>
      intro i st hst
      cases st with
      | none => simp [maskSegLoop]
      | some s =>
          have hsi : s ≤ i := hst s rfl
          refine ⟨by simp [maskSegLoop], ?_⟩
          intro a ha
          simp only [maskSegLoop, List.mem_singleton] at ha
          subst ha
          refine ⟨?_, ?_, ?_, ?_⟩
          · rw [createSegment_start, createSegment_stop]
            exact frameTime_mono fs sr hsi
          · rw [createSegment_start]
            exact frameTime_nonneg fs sr s
          · rw [createSegment_stop]
            exact frameTime_mono fs sr (by simp)
          · rw [createSegment_start, Option.getD_some]
  | cons b rest ih =>
      intro i st hst
      have hidx : i + (b :: rest).length = (i + 1) + rest.length := by
        simp only [List.length_cons]
        omega
      cases st with
      | none =>
          cases b with
          | true =>
              obtain ⟨hpw, hmem⟩ := ih (i + 1) (some i)
                (fun s hs => by injection hs with hs; omega)
              refine ⟨by simpa [maskSegLoop] using hpw, ?_⟩
              intro a ha
              simp only [maskSegLoop, if_true] at ha
              obtain ⟨h1, h2, h3, h4⟩ := hmem a ha
              rw [hidx]
              exact ⟨h1, h2, h3, by simpa using h4⟩
          | false =>
              obtain ⟨hpw, hmem⟩ := ih (i + 1) none (fun s hs => by cases hs)
              refine ⟨by simpa [maskSegLoop] using hpw, ?_⟩
              intro a ha
              simp only [maskSegLoop, if_false] at ha
              obtain ⟨h1, h2, h3, h4⟩ := hmem a ha
              rw [hidx]
              refine ⟨h1, h2, h3, le_trans (frameTime_mono fs sr (Nat.le_succ i)) ?_⟩
              simpa using h4
      | some s =>
          have hsi : s ≤ i := hst s rfl
          cases b with
          | true =>
              obtain ⟨hpw, hmem⟩ := ih (i + 1) (some s)
                (fun x hx => by injection hx with hx; omega)
              refine ⟨by simpa [maskSegLoop] using hpw, ?_⟩
              intro a ha
              simp only [maskSegLoop, if_true] at ha
              obtain ⟨h1, h2, h3, h4⟩ := hmem a ha
              rw [hidx]
              exact ⟨h1, h2, h3, by simpa using h4⟩
          | false =>
              obtain ⟨hpw, hmem⟩ := ih (i + 1) none (fun x hx => by cases hx)
              constructor
              · simp only [maskSegLoop, if_false]
                refine List.Pairwise.cons ?_ hpw
                intro a ha
                obtain ⟨_, _, _, h4⟩ := hmem a ha
                rw [createSegment_stop]
                exact le_trans (frameTime_mono fs sr (Nat.le_succ i)) (by simpa using h4)
              · intro a ha
                simp only [maskSegLoop, Bool.false_eq_true, if_false, List.mem_cons] at ha
                rw [hidx]
                rcases ha with ha | ha
                · subst ha
                  refine ⟨?_, ?_, ?_, ?_⟩
                  · rw [createSegment_start, createSegment_stop]
                    exact frameTime_mono fs sr hsi
                  · rw [createSegment_start]
                    exact frameTime_nonneg fs sr s
                  · rw [createSegment_stop]
                    exact frameTime_mono fs sr (by omega)
                  · rw [createSegment_start, Option.getD_some]
                · obtain ⟨h1, h2, h3, h4⟩ := hmem a ha
                  refine ⟨h1, h2, h3, ?_⟩
                  rw [Option.getD_some]
                  have h4a : frameTime fs sr (i + 1) ≤ a.start := by simpa using h4
                  exact le_trans (frameTime_mono fs sr (show s ≤ i + 1 by omega)) h4a

lemma maskToSegments_spec (db : List ℚ) (fs sr : ℕ) (mask : List Bool) :
    List.Pairwise (fun a b => a.stop ≤ b.start) (maskToSegments mask db fs sr) ∧
    ∀ a ∈ maskToSegments mask db fs sr,
      a.start ≤ a.stop ∧ 0 ≤ a.start ∧ a.stop ≤ frameTime fs sr mask.length := by
  obtain ⟨hpw, hmem⟩ := maskSegLoop_spec db fs sr mask 0 none (fun s hs => by cases hs)
  refine ⟨hpw, fun a ha => ?_⟩
  obtain ⟨h1, h2, h3, _⟩ := hmem a ha
  exact ⟨h1, h2, by simpa using h3⟩

lemma mergeLoop_spec (gap B : ℚ) (rest : List AudioSegment) :
    ∀ (last : AudioSegment),
      last.start ≤ last.stop → 0 ≤ last.start → last.stop ≤ B →
      (∀ a ∈ rest, last.stop ≤ a.start) →
      (∀ a ∈ rest, a.start ≤ a.stop ∧ 0 ≤ a.start ∧ a.stop ≤ B) →
      List.Pairwise (fun a b => a.stop ≤ b.start) rest →
      List.Pairwise (fun a b => a.stop ≤ b.start) (mergeLoop gap last rest) ∧
        (∀ a ∈ mergeLoop gap last rest, a.start ≤ a.stop ∧ 0 ≤ a.start ∧ a.stop ≤ B) ∧
        (∀ a ∈ mergeLoop gap last rest, last.start ≤ a.start) := by
  induction rest with
  | nil =>
      intro last h1 h2 h3 _ _ _
      refine ⟨by simp [mergeLoop], ?_, ?_⟩ <;>
        · intro a ha
          simp only [mergeLoop, List.mem_singleton] at ha
          subst ha
          first
            | exact ⟨h1, h2, h3⟩
            | exact le_refl _
  | cons s rest2 ih =>
      intro last h1 h2 h3 hafter hgood hpw
      have hls : last.stop ≤ s.start := hafter s (List.mem_cons_self s rest2)
      obtain ⟨hs1, hs2, hs3⟩ := hgood s (List.mem_cons_self s rest2)
      have hpw1 := List.pairwise_cons.1 hpw
      by_cases hm : s.start - last.stop ≤ gap
      · have hml : (mergeLoop gap last (s :: rest2)) =
            mergeLoop gap (last.merge_with s) rest2 := by
          simp [mergeLoop, hm]
        obtain ⟨ha1, ha2, ha3⟩ := ih (last.merge_with s)
          (by
            simp only [AudioSegment.merge_with]
            exact le_trans (min_le_left _ _) (le_trans h1 (le_trans hls
              (le_trans hs1 (le_max_right _ _)))))
          (by
            simp only [AudioSegment.merge_with]
            exact le_min h2 hs2)
          (by
            simp only [AudioSegment.merge_with]
            exact max_le h3 hs3)
          (by
            intro a ha
            simp only [AudioSegment.merge_with]
            exact max_le (hafter a (List.mem_cons_of_mem s ha)) (hpw1.1 a ha))
          (fun a ha => hgood a (List.mem_cons_of_mem s ha))
          hpw1.2
        rw [hml]
        refine ⟨ha1, ha2, fun a ha => le_trans ?_ (ha3 a ha)⟩
        simp only [AudioSegment.merge_with]
        exact le_min (le_refl _) (le_trans h1 hls)
      · have hml : (mergeLoop gap last (s :: rest2)) =
            last :: mergeLoop gap s rest2 := by
          simp [mergeLoop, hm]
        obtain ⟨ha1, ha2, ha3⟩ := ih s hs1 hs2 hs3 hpw1.1
          (fun a ha => hgood a (List.mem_cons_of_mem s ha)) hpw1.2
        rw [hml]
        refine ⟨?_, ?_, ?_⟩
        · refine List.Pairwise.cons ?_ ha1
          intro a ha
          exact le_trans hls (ha3 a ha)
        · intro a ha
          rcases List.mem_cons.1 ha with ha | ha
          · subst ha; exact ⟨h1, h2, h3⟩
          · exact ha2 a ha
        · intro a ha
          rcases List.mem_cons.1 ha with ha | ha
          · subst ha; exact le_refl _
          · exact le_trans h1 (le_trans hls (ha3 a ha))

lemma mergeCloseSegments_spec (cfg : AnalysisConfig) (B : ℚ) (segs : List AudioSegment)
    (hgood : ∀ a ∈ segs, a.start ≤ a.stop ∧ 0 ≤ a.start ∧ a.stop ≤ B)
    (hpw : List.Pairwise (fun a b => a.stop ≤ b.start) segs) :
    List.Pairwise (fun a b => a.stop ≤ b.start) (mergeCloseSegments cfg segs) ∧
      ∀ a ∈ mergeCloseSegments cfg segs, a.start ≤ a.stop ∧ 0 ≤ a.start ∧ a.stop ≤ B := by
  cases segs with
  | nil => simp [mergeCloseSegments]
  | cons s rest =>
      obtain ⟨hs1, hs2, hs3⟩ := hgood s (List.mem_cons_self s rest)
      have hpw1 := List.pairwise_cons.1 hpw
      obtain ⟨h1, h2, _⟩ := mergeLoop_spec ((cfg.merge_gap_ms : ℚ) / 1000) B rest s hs1 hs2 hs3
        hpw1.1 (fun a ha => hgood a (List.mem_cons_of_mem s ha)) hpw1.2
      exact ⟨h1, h2⟩

lemma padSegment_eq_some {pre post D : ℚ} {seg out : AudioSegment}
    (h : padSegment pre post D seg = some out) :
    out.start = max 0 (seg.start + pre) ∧ out.stop = min D (seg.stop - post) ∧
      seg.start + pre < seg.stop - post := by
  simp only [padSegment] at h
  split at h
  · next hc =>
      injection h with h
      subst h
      exact ⟨rfl, rfl, hc.1⟩
  · simp at h

lemma applyPadding_spec (cfg : AnalysisConfig) (D : ℚ)
    (hpre : 0 ≤ cfg.pre_pad_ms) (hpost : 0 ≤ cfg.post_pad_ms) (hD : 0 ≤ D)
    (segs : List AudioSegment)
    (hgood : ∀ a ∈ segs, a.start ≤ a.stop ∧ 0 ≤ a.start ∧ a.stop ≤ D)
    (hpw : List.Pairwise (fun a b => a.stop ≤ b.start) segs) :
    List.Pairwise (fun a b => a.stop ≤ b.start) (applyPadding cfg D segs) ∧
      ∀ a ∈ applyPadding cfg D segs, a.start ≤ a.stop := by
  have hpreQ : 0 ≤ (cfg.pre_pad_ms : ℚ) / 1000 :=
    div_nonneg (by exact_mod_cast hpre) (by norm_num)
  have hpostQ : 0 ≤ (cfg.post_pad_ms : ℚ) / 1000 :=
    div_nonneg (by exact_mod_cast hpost) (by norm_num)
  constructor
  · rw [applyPadding, List.pairwise_filterMap]
    refine hpw.imp_of_mem ?_
    intro a b ha hb hab x hx y hy
    obtain ⟨hx1, hx2, _⟩ := padSegment_eq_some (Option.mem_def.1 hx)
    obtain ⟨hy1, hy2, _⟩ := padSegment_eq_some (Option.mem_def.1 hy)
    rw [hx2, hy1]
    calc min D (a.stop - (cfg.post_pad_ms : ℚ) / 1000)
        ≤ a.stop - (cfg.post_pad_ms : ℚ) / 1000 := min_le_right _ _
      _ ≤ a.stop := by linarith
      _ ≤ b.start := hab
      _ ≤ b.start + (cfg.pre_pad_ms : ℚ) / 1000 := by linarith
      _ ≤ max 0 (b.start + (cfg.pre_pad_ms : ℚ) / 1000) := le_max_right _ _
  · intro x hx
    rw [applyPadding] at hx
    obtain ⟨a, ha, hpa⟩ := List.mem_filterMap.1 hx
    obtain ⟨hx1, hx2, hlt⟩ := padSegment_eq_some hpa
    obtain ⟨ha1, ha2, ha3⟩ := hgood a ha
    rw [hx1, hx2]
    apply max_le
    · exact le_min hD (by linarith)
    · exact le_min (by linarith) (le_of_lt hlt)

lemma hystLoop_length (onT offT : ℚ) (l : List ℚ) :
    ∀ b : Bool, (hystLoop onT offT b l).length = l.length := by
  induction l with
  | nil => intro b; cases b <;> simp [hystLoop]
  | cons d rest ih =>
      intro b
      cases b <;> simp only [hystLoop] <;> split <;> simp [ih]

lemma computeFrameDb_length (dbFrame : List ℚ → ℚ) (audio : List ℚ) (fs : ℕ) :
    (computeFrameDb dbFrame audio fs).length = audio.length / fs := by
  simp [computeFrameDb]

/-! ## Theorem for claim C1 -/

/-- C1: for every config with non-negative pads (the spec's
`ConfigOutOfRange` contract rules out negative durations), every PCM
stream, sample rate and frame-dB function, when `detect` succeeds the
returned cuts are sorted in ascending order of start and pairwise
non-overlapping: each cut's end is at most the next cut's start. -/
theorem detect_cuts_sorted_disjoint (dbFrame : List ℚ → ℚ) (cfg : AnalysisConfig)
    (audio : List ℚ) (sample_rate : ℕ) (cuts : List Cut)
    (hpre : 0 ≤ cfg.pre_pad_ms) (hpost : 0 ≤ cfg.post_pad_ms)
    (h : detect dbFrame cfg audio sample_rate = .ok cuts) :
    List.Pairwise (fun a b => a.start ≤ b.start ∧ a.stop ≤ b.start) cuts := by
  simp only [detect] at h
  by_cases hfs : Int.tdiv ((sample_rate : ℤ) * cfg.frame_ms) 1000 ≤ 0
  · rw [if_pos hfs] at h; cases h
  · rw [if_neg hfs] at h
    set fs := (Int.tdiv ((sample_rate : ℤ) * cfg.frame_ms) 1000).toNat with hfs_def
    set db := computeFrameDb dbFrame audio fs with hdb_def
    cases hth : calculateAdaptiveThreshold cfg db with
    | none => rw [hth] at h; cases h
    | some threshold =>
        rw [hth] at h
        injection h with h
        subst h
        set D : ℚ := (audio.length : ℚ) / (sample_rate : ℚ) with hD_def
        have hD : 0 ≤ D := div_nonneg (Nat.cast_nonneg _) (Nat.cast_nonneg _)
        set mask := applyHysteresis cfg threshold db with hmask_def
        obtain ⟨hpw0, hmem0⟩ := maskToSegments_spec db fs sample_rate mask
        have hlen : mask.length = audio.length / fs := by
          rw [hmask_def, applyHysteresis, hystLoop_length, hdb_def, computeFrameDb_length]
        have hbound : frameTime fs sample_rate mask.length ≤ D := by
          rw [hlen, hD_def]
          unfold frameTime
          exact natCast_div_mono sample_rate (Nat.div_mul_le_self audio.length fs)
        have hmem0D : ∀ a ∈ maskToSegments mask db fs sample_rate,
            a.start ≤ a.stop ∧ 0 ≤ a.start ∧ a.stop ≤ D := by
          intro a ha
          obtain ⟨h1, h2, h3⟩ := hmem0 a ha
          exact ⟨h1, h2, le_trans h3 hbound⟩
        have hpw1 : List.Pairwise (fun a b => a.stop ≤ b.start)
            (filterByDuration cfg (maskToSegments mask db fs sample_rate)) := by
          simp only [filterByDuration]
          exact hpw0.filter _
        have hmem1 : ∀ a ∈ filterByDuration cfg (maskToSegments mask db fs sample_rate),
            a.start ≤ a.stop ∧ 0 ≤ a.start ∧ a.stop ≤ D := by
          intro a ha
          simp only [filterByDuration] at ha
          exact hmem0D a (List.mem_of_mem_filter ha)
        obtain ⟨hpw2, hmem2⟩ := mergeCloseSegments_spec cfg D _ hmem1 hpw1
        obtain ⟨hpw3, hmem3⟩ := applyPadding_spec cfg D hpre hpost hD _ hmem2 hpw2
        simp only [segmentsToCuts]
        rw [List.pairwise_map]
        refine hpw3.imp_of_mem ?_
        intro a b ha hb hab
        exact ⟨le_trans (hmem3 a ha) hab, hab⟩

/-- Witness for C1: a 40-sample constant −50 dBFS stream at 1 kHz with
10 ms frames, min duration 10 ms and zero pads yields a single cut
`[0, 1/25)`, on which the sortedness/disjointness predicate holds. -/
theorem detect_cuts_sorted_disjoint_witness :
    (0 : ℤ) ≤ 0 ∧
    List.Pairwise (fun a b : Cut => a.start ≤ b.start ∧ a.stop ≤ b.start)
      [{ id := "", start := 0, stop := 1/25, cut_type := CutType.SILENCE,
         enabled := true, label := "", source_avg_db := -50, source_peak_db := -50 }] :=
  ⟨le_refl 0,
    detect_cuts_sorted_disjoint (fun _ => -50)
      { silence_min_duration_ms := 10, pre_pad_ms := 0, post_pad_ms := 0 }
      (List.replicate 40 0) 1000
      [{ id := "", start := 0, stop := 1/25, cut_type := CutType.SILENCE,
         enabled := true, label := "", source_avg_db := -50, source_peak_db := -50 }]
      (by decide) (by decide) (by decide)⟩

/-! ## Project serialization (`models.py` lines 137-160, 194-225, 335-371) -/

/-- The JSON object written by `Cut.to_dict` (lines 137-147). -/
structure CutDict where
  id : String
  start : ℚ
  stop : ℚ
  cut_type : String
  enabled : Bool
  label : String
  source_avg_db : ℚ
  source_peak_db : ℚ
deriving DecidableEq, Repr

/-- `Cut.to_dict` (lines 137-147). -/
def Cut.to_dict (c : Cut) : CutDict :=
  { id := c.id, start := c.start, stop := c.stop, cut_type := c.cut_type.value,
    enabled := c.enabled, label := c.label, source_avg_db := c.source_avg_db,
    source_peak_db := c.source_peak_db }

/-- `Cut.from_dict` (lines 149-160); `CutType(...)` raises `ValueError` on
an unknown string, modelled by `none`.  (The `dict.get` fallbacks never
fire on a document produced by `save`, which writes every key.) -/
def Cut.from_dict (d : CutDict) : Option Cut :=
  (cutTypeOfValue d.cut_type).map fun t =>
    { id := d.id, start := d.start, stop := d.stop, cut_type := t,
      enabled := d.enabled, label := d.label, source_avg_db := d.source_avg_db,
      source_peak_db := d.source_peak_db }

/-- The list comprehension `[Cut.from_dict(c) for c in data["cuts"]]`:
fails if any element fails. -/
def cutsFromDicts : List CutDict → Option (List Cut)
  | [] => some []
  | d :: rest => do
      let c ← Cut.from_dict d
      let cs ← cutsFromDicts rest
      pure (c :: cs)

/-- The JSON object written for one word by `TranscriptSegment.to_dict`. -/
structure TranscriptWordDict where
  text : String
  start : ℚ
  stop : ℚ
  confidence : ℚ
deriving DecidableEq, Repr

/-- The JSON object written by `TranscriptSegment.to_dict` (lines 194-205). -/
structure TranscriptSegmentDict where
  id : String
  text : String
  start : ℚ
  stop : ℚ
  language : String
  words : List TranscriptWordDict
deriving DecidableEq, Repr

/-- `TranscriptSegment.to_dict` (lines 194-205). -/
def TranscriptSegment.to_dict (s : TranscriptSegment) : TranscriptSegmentDict :=
  { id := s.id, text := s.text, start := s.start, stop := s.stop,
    language := s.language,
    words := s.words.map fun w =>
      { text := w.text, start := w.start, stop := w.stop, confidence := w.confidence } }

/-- `TranscriptSegment.from_dict` (lines 207-225). -/
def TranscriptSegment.from_dict (d : TranscriptSegmentDict) : TranscriptSegment :=
  { id := d.id, text := d.text, start := d.start, stop := d.stop,
    language := d.language,
    words := d.words.map fun w =>
      { text := w.text, start := w.start, stop := w.stop, confidence := w.confidence } }

/-- The JSON document written by `Project.save` (lines 335-349).  The
`config` entry is `AnalysisConfig.to_dict()`, whose
`from_dict` is the identity on the full field record, so it is carried
as the record itself; JSON encoding of the document is bijective
(Python floats round-trip exactly through `json`). -/
structure ProjectData where
  id : String
  name : String
  created_at : String
  modified_at : String
  media_path : Option String
  config : AnalysisConfig
  cuts : List CutDict
  transcript_segments : List TranscriptSegmentDict
  transcript_language : String
  transcript_model : String
deriving DecidableEq, Repr

/-- `Project.save` (lines 335-349) as a data transformation. -/
def Project.save (p : Project) : ProjectData :=
  { id := p.id, name := p.name, created_at := p.created_at,
    modified_at := p.modified_at,
    media_path := p.media_info.map MediaInfo.file_path,
    config := p.config,
    cuts := p.cuts.map Cut.to_dict,
    transcript_segments := p.transcript_segments.map TranscriptSegment.to_dict,
    transcript_language := p.transcript_language,
    transcript_model := p.transcript_model }

/-- `Project.load` (lines 351-371).  Note that `media_path` is not read:
the loaded project keeps the dataclass defaults `media_info = None` and
`waveform_cache_path = None`. -/
def Project.load (d : ProjectData) : Option Project := do
  let cuts ← cutsFromDicts d.cuts
  pure { id := d.id, name := d.name, created_at := d.created_at,
         modified_at := d.modified_at,
         media_info := none,
         config := d.config,
         cuts := cuts,
         transcript_segments := d.transcript_segments.map TranscriptSegment.from_dict,
         transcript_language := d.transcript_language,
         transcript_model := d.transcript_model,
         waveform_cache_path := none }

lemma cutTypeOfValue_value (t : CutType) : cutTypeOfValue t.value = some t := by
  cases t <;> rfl

lemma cut_from_to_dict (c : Cut) : Cut.from_dict c.to_dict = some c := by
  rcases c with ⟨i, s, e, t, en, lb, a1, a2⟩
  cases t <;> rfl

lemma cutsFromDicts_map_to_dict (cuts : List Cut) :
    cutsFromDicts (cuts.map Cut.to_dict) = some cuts := by
  induction cuts with
  | nil => rfl
  | cons c rest ih => simp [cutsFromDicts, cut_from_to_dict, ih]

lemma transcript_from_to_dict (s : TranscriptSegment) :
    TranscriptSegment.from_dict s.to_dict = s := by
  rcases s with ⟨i, tx, st, sp, lg, ws⟩
  simp only [TranscriptSegment.to_dict, TranscriptSegment.from_dict, List.map_map]
  congr 1
  exact List.map_id'' (fun w => rfl) ws

/-! ## Theorems for claim C9 -/

/-- C9 counterexample: the claim requires the loaded project to carry the
original MediaInfo path, but `Project.load` never restores `media_info` —
evaluated on a project whose `media_info` is set, the loaded project has
`media_info = none`. -/
theorem project_roundtrip_counterexample :
    (Project.load (Project.save
        { media_info := some { file_path := "/v.mp4", duration := 10, fps := 30 },
          cuts := [{ id := "c", start := 1, stop := 2 }] })).map Project.media_info
      = some none ∧
    ({ media_info := some { file_path := "/v.mp4", duration := 10, fps := 30 },
       cuts := [{ id := "c", start := 1, stop := 2 }] } : Project).media_info ≠ none := by
  exact ⟨by decide, by decide⟩

/-- C9 (amended): save-then-load preserves the id, name, timestamps,
`AnalysisConfig`, the whole cut list (ids, bounds, types, enabled flags,
labels, source dB values) and the transcript segments exactly, but the
loaded project has `media_info = none` (and `waveform_cache_path = none`):
the MediaInfo path is written to JSON but never read back. -/
theorem project_roundtrip_amended (p : Project) :
    Project.load (Project.save p)
      = some { p with media_info := none, waveform_cache_path := none } := by
  rcases p with ⟨i, n, ca, ma, mi, cfg, cuts, ts, tl, tm, wc⟩
  simp only [Project.load, Project.save, cutsFromDicts_map_to_dict, List.map_map,
    Option.bind_eq_bind, Option.some_bind]
  congr 2
  exact List.map_id'' (fun s => transcript_from_to_dict s) ts

/-! ## FCPXML rational time and spine clips (`app/export/fcpxml.py`) -/

/-- The `fps_denominators` table of `time_to_rational` (lines 51-60),
in the dict's insertion order. -/
def fpsTable : List (ℚ × ℤ × ℤ) :=
  [(23976/1000, (1001, 24000)), (24, (1, 24)), (25, (1, 25)),
   (2997/100, (1001, 30000)), (30, (1, 30)), (50, (1, 50)),
   (5994/100, (1001, 60000)), (60, (1, 60))]

/-- `min(fps_denominators.keys(), key=lambda x: abs(x - fps))`: the first
table key minimising the distance (Python `min` keeps the earliest
minimum). -/
def closestFpsEntry (fps : ℚ) : ℚ × ℤ × ℤ :=
  fpsTable.foldl
    (fun best x => if pyAbs (x.1 - fps) < pyAbs (best.1 - fps) then x else best)
    (23976/1000, (1001, 24000))

/-- `time_to_rational` (`fcpxml.py` lines 36-72):
`frames = round(seconds * den / num_per_frame)`, emitted as
`"{frames * num_per_frame}/{den}s"`. -/
def time_to_rational (seconds : ℚ) (fps : ℚ) : String :=
  let e := closestFpsEntry fps
  let num_per_frame := e.2.1
  let den := e.2.2
  let frames := pyRound (seconds * (den : ℚ) / (num_per_frame : ℚ))
  let numerator := frames * num_per_frame
  toString numerator ++ "/" ++ toString den ++ "s"

/-- The attributes of one `<asset-clip>` element under the spine. -/
structure ClipAttrs where
  name : String
  offset : String
  duration : String
  start : String
deriving DecidableEq, Repr

/-- The `<asset-clip>` loop of `FCPXMLBuilder._build_sequence`
(lines 218-239): `offset` is the cumulative output time, `duration` the
segment length, `start` the source position of the segment. -/
def buildSpineClips (fps : ℚ) : ℚ → ℕ → List (ℚ × ℚ) → List ClipAttrs
  | _, _, [] => []
  | off, i, seg :: rest =>
      { name := "Clip " ++ toString (i + 1),
        offset := time_to_rational off fps,
        duration := time_to_rational (seg.2 - seg.1) fps,
        start := time_to_rational seg.1 fps } ::
        buildSpineClips fps (off + (seg.2 - seg.1)) (i + 1) rest

/-- The spine contents of the FCPXML document built by `FCPXMLBuilder.build`
for a project: one `<asset-clip>` per keep segment, with
`fps = media.fps or 30.0` (Python `or`: 0 falls back to 30). -/
def fcpxmlSpineClips (p : Project) : List ClipAttrs :=
  match p.media_info with
  | none => []
  | some mi =>
      buildSpineClips (if mi.fps = 0 then 30 else mi.fps) 0 0 p.get_keep_segments

/-! ## Theorems for claim C6 -/

set_option maxRecDepth 4000 in
/-- C6 counterexample: for the S5 project (120 s, fps 30, 1920×1080, enabled
silence cuts [10,20) and [60,80)) the spec claims offsets
`0s, 300300/30000s, 1501500/30000s` and starts `0s, 600600/30000s,
2402400/30000s`.  The code picks the exact-match table entry `(1, 30)` for
fps 30, so every attribute is on the `/30` grid (and `t = 0` is emitted as
`0/30s`, never `0s`); the claimed attribute lists are not produced. -/
theorem fcpxml_s5_claim_false :
    ¬((fcpxmlSpineClips
          { media_info := some { file_path := "/s5.mp4", duration := 120, fps := 30,
                                 width := 1920, height := 1080 },
            cuts := [{ id := "a", start := 10, stop := 20 },
                     { id := "b", start := 60, stop := 80 }] }).map ClipAttrs.offset
        = ["0s", "300300/30000s", "1501500/30000s"] ∧
      (fcpxmlSpineClips
          { media_info := some { file_path := "/s5.mp4", duration := 120, fps := 30,
                                 width := 1920, height := 1080 },
            cuts := [{ id := "a", start := 10, stop := 20 },
                     { id := "b", start := 60, stop := 80 }] }).map ClipAttrs.start
        = ["0s", "600600/30000s", "2402400/30000s"]) := by
  decide

set_option maxRecDepth 4000 in
/-- C6 (amended): for the S5 project the writer emits exactly three
`<asset-clip>` elements, with offset attributes `0/30s`, `300/30s`,
`1500/30s` and start attributes `0/30s`, `600/30s`, `2400/30s` (the 30 fps
frame grid; the offsets are the cumulative output times 0, 10, 50 and the
starts the source positions 0, 20, 80). -/
theorem fcpxml_s5_actual :
    (fcpxmlSpineClips
        { media_info := some { file_path := "/s5.mp4", duration := 120, fps := 30,
                               width := 1920, height := 1080 },
          cuts := [{ id := "a", start := 10, stop := 20 },
                   { id := "b", start := 60, stop := 80 }] }).map ClipAttrs.offset
      = ["0/30s", "300/30s", "1500/30s"] ∧
    (fcpxmlSpineClips
        { media_info := some { file_path := "/s5.mp4", duration := 120, fps := 30,
                               width := 1920, height := 1080 },
          cuts := [{ id := "a", start := 10, stop := 20 },
                   { id := "b", start := 60, stop := 80 }] }).map ClipAttrs.start
      = ["0/30s", "600/30s", "2400/30s"] ∧
    (fcpxmlSpineClips
        { media_info := some { file_path := "/s5.mp4", duration := 120, fps := 30,
                               width := 1920, height := 1080 },
          cuts := [{ id := "a", start := 10, stop := 20 },
                   { id := "b", start := 60, stop := 80 }] }).length = 3 := by
  exact ⟨by decide, by decide, by decide⟩

end AutoCut
